import Mathlib

/-!
Shallow embedding of the `visualization.py` module of the
`movement_primitives` repository, together with theorems checking the
specification's claims about it.

The module builds Open3D geometry from rigid-body poses:
- `Figure.view_init` re-poses the camera from azimuth/elevation angles;
- `Trajectory.add_trajectory` builds a polyline and key coordinate frames
  from a pose sequence;
- `plot_trajectory` is the public entry point with an assertion on
  `show_direction`;
- `Frame.set_data` / `Trajectory.set_data` raise `NotImplementedError`;
- `show_urdf_transform_manager` and the per-shape `show` functions project
  a URDF transform manager into geometry.

Numeric conventions of the embedding: the camera mathematics is modelled
over the real numbers (the Python code computes with floating point; the
spec's claims are about the exact linear algebra), while the discrete
trajectory/geometry bookkeeping is modelled over `ℚ` so that it is
executable.  NumPy's `linspace(..., dtype=int)` is modelled as exact
rational linear interpolation followed by truncation toward zero, which is
what `astype(int)` performs on the (here exactly representable) values.
-/

namespace Visualization

/-- Exceptions that the Python code can raise on the modelled paths:
`NotImplementedError` from the `set_data` methods and the box/sphere/cylinder
`show` functions, `AssertionError` from the `assert` in `plot_trajectory`,
and `IndexError` from out-of-range list indexing. -/
inductive Err
  | notImplementedError
  | assertionError
  | indexError
deriving DecidableEq

/-- A rigid transform as assembled by `pytransform3d.transformations.
transform_from`: the 3×3 rotation block and the 3-translation of the 4×4
homogeneous matrix (the bottom row is always `[0,0,0,1]` and is omitted). -/
structure Transform (α : Type) where
  R : Matrix (Fin 3) (Fin 3) α
  p : Fin 3 → α

/-- Model of `pt.transform_from(R=R, p=p)`. -/
def transform_from {α : Type} (R : Matrix (Fin 3) (Fin 3) α) (p : Fin 3 → α) :
    Transform α :=
  ⟨R, p⟩

/-- Euclidean norm of a 3-vector, `np.linalg.norm(v)`. -/
noncomputable def vecNorm (v : Fin 3 → ℝ) : ℝ :=
  Real.sqrt (v 0 ^ 2 + v 1 ^ 2 + v 2 ^ 2)

/-- Model of `np.deg2rad`. -/
noncomputable def deg2rad (x : ℝ) : ℝ := x * Real.pi / 180

/-- Model of `pytransform3d.rotations.active_matrix_from_angle(basis, angle)`:
active (right-hand rule) rotation matrix about basis axis 0 (X), 1 (Y) or
2 (Z). -/
noncomputable def active_matrix_from_angle (basis : ℕ) (angle : ℝ) :
    Matrix (Fin 3) (Fin 3) ℝ :=
  if basis = 0 then
    !![1, 0, 0;
       0, Real.cos angle, -Real.sin angle;
       0, Real.sin angle, Real.cos angle]
  else if basis = 1 then
    !![Real.cos angle, 0, Real.sin angle;
       0, 1, 0;
       -Real.sin angle, 0, Real.cos angle]
  else
    !![Real.cos angle, -Real.sin angle, 0;
       Real.sin angle, Real.cos angle, 0;
       0, 0, 1]

/-- The fixed reference world-to-camera rotation of `Figure.view_init`
(the array literal at lines 43–46 of `visualization.py`). -/
def R_azim_elev_0_world2camera : Matrix (Fin 3) (Fin 3) ℝ :=
  !![0, 1, 0;
     0, 0, -1;
     -1, 0, 0]

/-- Transpose of the reference orientation, `R_azim_elev_0_world2camera.T`. -/
def R_azim_elev_0_camera2world : Matrix (Fin 3) (Fin 3) ℝ :=
  R_azim_elev_0_world2camera.transpose

/-- Model of `Figure.view_init(azim, elev)` as a pure function on the camera
extrinsic: the method reads the current pinhole-camera extrinsic, computes
a new one from the azimuth and elevation angles (in degrees) and the
current translation norm, and writes it back.  The returned transform is
the extrinsic written back. -/
noncomputable def view_init (extrinsic : Transform ℝ) (azim elev : ℝ) :
    Transform ℝ :=
  let distance := vecNorm extrinsic.p
  let R_azim := active_matrix_from_angle 2 (deg2rad azim)
  let R_elev := active_matrix_from_angle 1 (deg2rad (-elev))
  let R_elev_azim_camera2world := R_azim * R_elev * R_azim_elev_0_camera2world
  transform_from R_elev_azim_camera2world.transpose ![0, 0, distance]

/-- Unfolded form of `view_init`, used by the proofs. -/
theorem view_init_def (extrinsic : Transform ℝ) (azim elev : ℝ) :
    view_init extrinsic azim elev =
      transform_from
        (active_matrix_from_angle 2 (deg2rad azim) *
          active_matrix_from_angle 1 (deg2rad (-elev)) *
          R_azim_elev_0_camera2world).transpose
        ![0, 0, vecNorm extrinsic.p] := rfl

/-- The camera orbit operation exactly as the specification words it
(claim C1): `compose(R, p)` with
`R = (R_azim · R_elev · R0_camera2world)ᵀ` and `p = [0, 0, distance]`,
where `distance` is the norm of the current extrinsic's translation,
`R_azim` is the active rotation about Z by `azimuth` radians, `R_elev` is
the active rotation about Y by minus `elevation` radians, and
`R0_camera2world` is the transpose of `[[0,1,0],[0,0,-1],[-1,0,0]]`.
This definition follows the specification's words and is compared against
the source-derived `view_init`. -/
noncomputable def orbit_spec (E : Transform ℝ) (azimuth elevation : ℝ) :
    Transform ℝ :=
  let distance := Real.sqrt (E.p 0 ^ 2 + E.p 1 ^ 2 + E.p 2 ^ 2)
  let R_azim : Matrix (Fin 3) (Fin 3) ℝ :=
    !![Real.cos (deg2rad azimuth), -Real.sin (deg2rad azimuth), 0;
       Real.sin (deg2rad azimuth), Real.cos (deg2rad azimuth), 0;
       0, 0, 1]
  let R_elev : Matrix (Fin 3) (Fin 3) ℝ :=
    !![Real.cos (deg2rad (-elevation)), 0, Real.sin (deg2rad (-elevation));
       0, 1, 0;
       -Real.sin (deg2rad (-elevation)), 0, Real.cos (deg2rad (-elevation))]
  let R0_camera2world : Matrix (Fin 3) (Fin 3) ℝ :=
    (!![0, 1, 0;
        0, 0, -1;
        -1, 0, 0]).transpose
  transform_from (R_azim * R_elev * R0_camera2world).transpose
    ![0, 0, distance]

/-- Claim C1: for every current camera extrinsic and all angles, the
extrinsic written back by `Figure.view_init` equals `compose(R, p)` with
`R = (R_azim · R_elev · R0_camera2world)ᵀ` and `p = [0, 0, distance]`,
exactly as the specification describes the orbit operation. -/
theorem view_init_matches_spec (E : Transform ℝ) (azim elev : ℝ) :
    view_init E azim elev = orbit_spec E azim elev := rfl

theorem transform_from_p {α : Type} (R : Matrix (Fin 3) (Fin 3) α)
    (p : Fin 3 → α) : (transform_from R p).p = p := rfl

theorem vecNorm_nonneg (v : Fin 3 → ℝ) : 0 ≤ vecNorm v :=
  Real.sqrt_nonneg _

theorem vecNorm_single (d : ℝ) (hd : 0 ≤ d) :
    vecNorm ![0, 0, d] = d := by
  simp only [vecNorm, Matrix.cons_val_zero, Matrix.cons_val_one, Matrix.head_cons,
    Matrix.cons_val_two, Matrix.tail_cons]
  rw [show (0:ℝ) ^ 2 + 0 ^ 2 + d ^ 2 = d ^ 2 by ring]
  exact Real.sqrt_sq hd

/-- The translation written back by `view_init` is `[0, 0, ‖p‖]`, whose
norm is the original translation's norm. -/
theorem vecNorm_view_init (E : Transform ℝ) (azim elev : ℝ) :
    vecNorm (view_init E azim elev).p = vecNorm E.p := by
  rw [view_init_def]
  exact vecNorm_single _ (vecNorm_nonneg E.p)

/-- Claim C3: the orbit operation preserves the camera-to-origin distance:
the norm of the translation of the extrinsic written back by `view_init`
equals the norm of the translation of the extrinsic read at the start of
the call. -/
theorem view_init_preserves_distance (E : Transform ℝ) (azim elev : ℝ) :
    vecNorm (view_init E azim elev).p = vecNorm E.p :=
  vecNorm_view_init E azim elev

/-- Claim C4: applying the orbit operation with azimuth 0 and elevation 0
twice in succession yields the same extrinsic both times: each call is an
absolute re-pose computed only from the current extrinsic's translation
norm, with no hidden accumulated state. -/
theorem view_init_idempotent (E : Transform ℝ) :
    view_init (view_init E 0 0) 0 0 = view_init E 0 0 := by
  rw [view_init_def, view_init_def, transform_from_p,
    vecNorm_single (vecNorm E.p) (vecNorm_nonneg E.p)]

/-- Truncation toward zero of a rational, as performed by NumPy's
`astype(int)` (C-style cast) on the linspace values. -/
def truncQ (x : ℚ) : ℤ :=
  if 0 ≤ x then ⌊x⌋ else ⌈x⌉

/-- Model of `np.linspace(0, stop, num, dtype=np.int)`: `num` evenly spaced values
from `0` to `stop` inclusive (exact rational interpolation), cast to
integers by truncation toward zero.  For `num = 1` NumPy returns the start
value `[0]`; for `num = 0` the empty array. -/
def linspace_int (stop : ℤ) (num : ℕ) : List ℤ :=
  if num = 0 then []
  else if num = 1 then [0]
  else (List.range num).map fun i : ℕ =>
    truncQ ((stop : ℚ) * (i : ℚ) / ((num : ℚ) - 1))

/-- Python list indexing `l[i]`: negative indices count from the end;
out-of-range indexing is an `IndexError`, modelled as `none`. -/
def pythonGet {α : Type} (l : List α) (i : ℤ) : Option α :=
  let j : ℤ := if i < 0 then (l.length : ℤ) + i else i
  if 0 ≤ j then l[j.toNat]? else none

/-- The `Frame` class: a coordinate-frame primitive holding a pose `A2B`,
an optional (ignored, warned-about) label, and an axis scale `s`. -/
structure Frame (α : Type) where
  A2B : Transform α
  label : Option ℕ
  s : α

/-- The `Trajectory` class fields: pose matrices `H`, the `show_direction`
flag (stored but never read by `add_trajectory`), the number of key frames,
the frame scale `s` and the line color `c`. -/
structure Trajectory (α : Type) where
  H : List (Transform α)
  show_direction : Bool
  n_frames : ℕ
  s : α
  c : Fin 3 → α

/-- The Open3D `LineSet` built by `add_trajectory`: the pose translations
as points, index pairs as lines, and one color per line. -/
structure LineSet (α : Type) where
  points : List (Fin 3 → α)
  lines : List (ℕ × ℕ)
  colors : List (Fin 3 → α)

/-- The key-frame construction loop of `Trajectory.add_trajectory`: for
each index, `Frame(self.H[key_frame_idx], s=self.s)`; an out-of-range
index raises `IndexError`. -/
def buildFrames {α : Type} (H : List (Transform α)) (s : α) :
    List ℤ → Except Err (List (Frame α))
  | [] => Except.ok []
  | idx :: rest =>
    match pythonGet H idx with
    | some T => do
      let fs ← buildFrames H s rest
      Except.ok (⟨T, none, s⟩ :: fs)
    | none => Except.error Err.indexError

/-- Model of `Trajectory.add_trajectory(figure)`: builds the polyline
(`points = H[:, :3, 3]`, `lines = [(i, i+1) for i in range(N-1)]`, one
copy of the color per line) and then one `Frame` per key-frame index from
`np.linspace(0, len(H) - 1, n_frames, dtype=np.int)`.  The geometry handed
to the figure is returned; an out-of-range key-frame index surfaces as
`IndexError`. -/
def add_trajectory {α : Type} (tr : Trajectory α) :
    Except Err (LineSet α × List (Frame α)) := do
  let points := tr.H.map Transform.p
  let lines := (List.range (points.length - 1)).map fun i => (i, i + 1)
  let line_set : LineSet α := ⟨points, lines, List.replicate lines.length tr.c⟩
  let key_frames_indices := linspace_int ((tr.H.length : ℤ) - 1) tr.n_frames
  let frames ← buildFrames tr.H tr.s key_frames_indices
  return (line_set, frames)

/-- Model of `plot_trajectory(figure, P, show_direction, n_frames, s, c)`: converts
the poses, asserts `not show_direction` (message: not implemented yet),
builds a `Trajectory` and adds it to the figure.  The position+quaternion
to matrix conversion is external and is modelled by taking the already
converted pose list `H`. -/
def plot_trajectory {α : Type} (H : List (Transform α)) (show_direction : Bool)
    (n_frames : ℕ) (s : α) (c : Fin 3 → α) :
    Except Err (LineSet α × List (Frame α)) :=
  if show_direction then Except.error Err.assertionError
  else add_trajectory ⟨H, show_direction, n_frames, s, c⟩

/-- A call of `plot_trajectory` that omits every optional argument, using
the source's defaults `show_direction=True, n_frames=10, s=1.0,
c=[0, 0, 0]`. -/
def plot_trajectory_defaults (H : List (Transform ℚ)) :
    Except Err (LineSet ℚ × List (Frame ℚ)) :=
  plot_trajectory H true 10 1 fun _ => 0

/-- Default transform used only to phrase list lookups totally; every
lookup in the theorems below is in bounds, so this value is never the
result. -/
def dTransform : Transform ℚ := ⟨1, fun _ => 0⟩

theorem truncQ_natCast_div (a d : ℕ) :
    truncQ ((a : ℚ) / (d : ℚ)) = ((a / d : ℕ) : ℤ) := by
  have h0 : (0:ℚ) ≤ (a : ℚ) / (d : ℚ) := by positivity
  rw [truncQ, if_pos h0]
  exact_mod_cast Rat.floor_natCast_div_natCast a d

/-- On the nonnegative inputs produced by `add_trajectory`, the
linspace model evaluates to natural-number division. -/
theorem linspace_int_natCast (s num : ℕ) (h : 2 ≤ num) :
    linspace_int (s : ℤ) num =
      (List.range num).map fun i => ((s * i / (num - 1) : ℕ) : ℤ) := by
  unfold linspace_int
  rw [if_neg (by omega), if_neg (by omega)]
  refine List.map_congr_left fun i _ => ?_
  have h1 : (((s : ℤ) : ℚ)) * (i : ℚ) = ((s * i : ℕ) : ℚ) := by push_cast; ring
  have h2 : ((num : ℚ) - 1) = ((num - 1 : ℕ) : ℚ) := by
    rw [Nat.cast_sub (by omega), Nat.cast_one]
  rw [h1, h2, truncQ_natCast_div]

theorem linspace_int_mem_bounds (s num : ℕ) (h : 2 ≤ num) :
    ∀ x ∈ linspace_int (s : ℤ) num, 0 ≤ x ∧ x ≤ (s : ℤ) := by
  intro x hx
  rw [linspace_int_natCast s num h] at hx
  obtain ⟨i, hi, rfl⟩ := List.mem_map.mp hx
  constructor
  · exact Int.natCast_nonneg _
  · have hle : s * i / (num - 1) ≤ s := by
      have hi1 : i ≤ num - 1 := by
        have := List.mem_range.mp hi
        omega
      calc s * i / (num - 1) ≤ s * (num - 1) / (num - 1) :=
            Nat.div_le_div_right (Nat.mul_le_mul_left s hi1)
        _ = s := Nat.mul_div_cancel s (by omega)
    exact_mod_cast hle

theorem linspace_int_head (s num : ℕ) (h : 2 ≤ num) :
    (linspace_int (s : ℤ) num).head? = some 0 := by
  rw [linspace_int_natCast s num h]
  obtain ⟨k, rfl⟩ : ∃ k, num = k + 1 := ⟨num - 1, by omega⟩
  rw [List.range_succ_eq_map]
  simp

theorem linspace_int_getLast (s num : ℕ) (h : 2 ≤ num) :
    (linspace_int (s : ℤ) num).getLast? = some (s : ℤ) := by
  rw [linspace_int_natCast s num h]
  obtain ⟨k, rfl⟩ : ∃ k, num = k + 1 := ⟨num - 1, by omega⟩
  rw [List.range_succ, List.getLast?_map, List.getLast?_concat]
  simp only [Option.map_some']
  congr 1
  have : k + 1 - 1 = k := by omega
  rw [this, Nat.mul_div_cancel s (by omega)]

theorem pythonGet_eq_getD (H : List (Transform ℚ)) (a : ℤ)
    (h0 : 0 ≤ a) (hlt : a < (H.length : ℤ)) :
    pythonGet H a = some (H.getD a.toNat dTransform) := by
  have hna : ¬ a < 0 := by omega
  have hlen : a.toNat < H.length := by omega
  simp only [pythonGet, if_neg hna, if_pos h0, List.getElem?_eq_getElem hlen,
    List.getD_eq_getElem?_getD, Option.getD_some]

/-- If every index is in range, the key-frame loop succeeds and builds one
`Frame` (with the trajectory's scale) per selected index, in order. -/
theorem buildFrames_ok (H : List (Transform ℚ)) (s : ℚ) (l : List ℤ)
    (hb : ∀ x ∈ l, 0 ≤ x ∧ x < (H.length : ℤ)) :
    buildFrames H s l =
      Except.ok (l.map fun idx => ⟨H.getD idx.toNat dTransform, none, s⟩) := by
  induction l with
  | nil => rfl
  | cons a rest ih =>
    obtain ⟨ha0, halt⟩ := hb a (List.mem_cons_self a rest)
    have hget := pythonGet_eq_getD H a ha0 halt
    rw [buildFrames, hget, ih fun x hx => hb x (List.mem_cons_of_mem _ hx)]
    rfl

/-- Index bounds of the key-frame selection for any `n_frames`, given at
least one pose. -/
theorem linspace_bounds_all (len n : ℕ) (hlen : 1 ≤ len) :
    ∀ x ∈ linspace_int ((len : ℤ) - 1) n, 0 ≤ x ∧ x < (len : ℤ) := by
  intro x hx
  by_cases h0 : n = 0
  · subst h0
    simp [linspace_int] at hx
  by_cases h1 : n = 1
  · subst h1
    simp [linspace_int] at hx
    omega
  · have h2 : 2 ≤ n := by omega
    have hc : ((len : ℤ) - 1) = ((len - 1 : ℕ) : ℤ) := by omega
    rw [hc] at hx
    have := linspace_int_mem_bounds (len - 1) n h2 x hx
    omega

/-- Rewriting of `add_trajectory` as a map over the result of the key-frame
loop; the polyline part never fails. -/
theorem add_trajectory_eq (tr : Trajectory ℚ) :
    add_trajectory tr =
      (buildFrames tr.H tr.s
          (linspace_int ((tr.H.length : ℤ) - 1) tr.n_frames)).map
        fun frames =>
          (⟨tr.H.map Transform.p,
            (List.range ((tr.H.map Transform.p).length - 1)).map
              (fun i => (i, i + 1)),
            List.replicate
              ((List.range ((tr.H.map Transform.p).length - 1)).map
                (fun i => (i, i + 1))).length tr.c⟩,
            frames) := by
  cases h : buildFrames tr.H tr.s (linspace_int ((tr.H.length : ℤ) - 1) tr.n_frames) with
  | ok fs =>
    simp [add_trajectory, h, Except.map, Bind.bind, Except.bind, pure, Except.pure]
  | error e =>
    simp [add_trajectory, h, Except.map, Bind.bind, Except.bind]

/-- Claim C2 (amended): for a pose sequence of length `N ≥ 2` and
`n_frames ≥ 1`, `Trajectory.add_trajectory` succeeds; its key-frame
indices are evenly spaced across `[0, N-1]` by linear interpolation
truncated toward zero to an integer index (not rounded to nearest), with
duplicates allowed; the first selected index is `0`, and when
`n_frames ≥ 2` the last selected index is `N-1`; one coordinate frame
with the trajectory's scale is built at each selected pose. -/
theorem add_trajectory_key_frames (tr : Trajectory ℚ)
    (hN : 2 ≤ tr.H.length) (hn : 1 ≤ tr.n_frames) :
    ∃ ls : LineSet ℚ, ∃ frames : List (Frame ℚ),
      add_trajectory tr = Except.ok (ls, frames) ∧
      linspace_int ((tr.H.length : ℤ) - 1) tr.n_frames =
        (List.range tr.n_frames).map
          (fun i : ℕ =>
            truncQ (((tr.H.length : ℚ) - 1) * (i : ℚ) /
              ((tr.n_frames : ℚ) - 1))) ∧
      frames = (linspace_int ((tr.H.length : ℤ) - 1) tr.n_frames).map
        (fun idx => ⟨tr.H.getD idx.toNat dTransform, none, tr.s⟩) ∧
      (linspace_int ((tr.H.length : ℤ) - 1) tr.n_frames).head? = some 0 ∧
      (2 ≤ tr.n_frames →
        (linspace_int ((tr.H.length : ℤ) - 1) tr.n_frames).getLast? =
          some ((tr.H.length : ℤ) - 1)) := by
  have hcast : ((tr.H.length : ℤ) - 1) = ((tr.H.length - 1 : ℕ) : ℤ) := by omega
  have hb := linspace_bounds_all tr.H.length tr.n_frames (by omega)
  have hbuild := buildFrames_ok tr.H tr.s _ hb
  refine ⟨⟨tr.H.map Transform.p,
      (List.range ((tr.H.map Transform.p).length - 1)).map (fun i => (i, i + 1)),
      List.replicate ((List.range ((tr.H.map Transform.p).length - 1)).map
        (fun i => (i, i + 1))).length tr.c⟩, _, ?_, ?_, rfl, ?_, ?_⟩
  · rw [add_trajectory_eq, hbuild]
    rfl
  · by_cases h1 : tr.n_frames = 1
    · rw [h1, show List.range 1 = [0] from rfl]
      simp [linspace_int, truncQ]
    · unfold linspace_int
      rw [if_neg (by omega), if_neg (by omega)]
      refine List.map_congr_left fun i _ => ?_
      have hq : ((((tr.H.length : ℤ) - 1 : ℤ)) : ℚ) = ((tr.H.length : ℚ) - 1) := by
        push_cast
        ring
      rw [hq]
  · by_cases h1 : tr.n_frames = 1
    · rw [h1]
      rw [show linspace_int ((tr.H.length : ℤ) - 1) 1 = [0] from by
        unfold linspace_int
        rw [if_neg (by omega), if_pos rfl]]
      rfl
    · rw [hcast, linspace_int_head _ _ (by omega)]
  · intro h2
    rw [hcast, linspace_int_getLast _ _ h2]

/-- A small concrete pose used by the evaluation theorems: identity
rotation and translation `(k, k, k)`. -/
def wPose (k : ℚ) : Transform ℚ := ⟨1, fun _ => k⟩

/-- Concrete three-pose trajectory with two key frames. -/
def wTraj : Trajectory ℚ := ⟨[wPose 0, wPose 1, wPose 2], false, 2, 1, fun _ => 0⟩

/-- Witness for `add_trajectory_key_frames` at the concrete trajectory
`wTraj`. -/
theorem add_trajectory_key_frames_witness :
    2 ≤ wTraj.H.length ∧ 1 ≤ wTraj.n_frames ∧
      (∃ ls : LineSet ℚ, ∃ frames : List (Frame ℚ),
        add_trajectory wTraj = Except.ok (ls, frames) ∧
        linspace_int ((wTraj.H.length : ℤ) - 1) wTraj.n_frames =
          (List.range wTraj.n_frames).map
            (fun i : ℕ =>
              truncQ (((wTraj.H.length : ℚ) - 1) * (i : ℚ) /
                ((wTraj.n_frames : ℚ) - 1))) ∧
        frames = (linspace_int ((wTraj.H.length : ℤ) - 1) wTraj.n_frames).map
          (fun idx => ⟨wTraj.H.getD idx.toNat dTransform, none, wTraj.s⟩) ∧
        (linspace_int ((wTraj.H.length : ℤ) - 1) wTraj.n_frames).head? = some 0 ∧
        (2 ≤ wTraj.n_frames →
          (linspace_int ((wTraj.H.length : ℤ) - 1) wTraj.n_frames).getLast? =
            some ((wTraj.H.length : ℤ) - 1))) :=
  ⟨by decide, by decide, add_trajectory_key_frames wTraj (by decide) (by decide)⟩

/-- Key-frame index selection as claim C2 words it: `n` indices evenly
spaced across `[0, N-1]` by linear interpolation, rounded to the NEAREST
integer index.  Modelled from the claim's words, for comparison with the
implementation's truncating `linspace_int`. -/
def roundNearestIndices (N n : ℕ) : List ℤ :=
  if n = 0 then []
  else if n = 1 then [0]
  else (List.range n).map fun i : ℕ =>
    round (((N : ℚ) - 1) * (i : ℚ) / ((n : ℚ) - 1))

/-- The x-coordinates of the key-frame poses that `add_trajectory`
builds, or `none` when it fails. -/
def keyFramePositions (tr : Trajectory ℚ) : Option (List ℚ) :=
  match add_trajectory tr with
  | Except.ok (_, frames) => some (frames.map fun fr => fr.A2B.p 0)
  | Except.error _ => none

theorem keyFramePositions_def (tr : Trajectory ℚ) :
    keyFramePositions tr =
      match buildFrames tr.H tr.s
          (linspace_int ((tr.H.length : ℤ) - 1) tr.n_frames) with
      | Except.ok frames => some (frames.map fun fr => fr.A2B.p 0)
      | Except.error _ => none := by
  rw [keyFramePositions, add_trajectory_eq]
  cases buildFrames tr.H tr.s (linspace_int ((tr.H.length : ℤ) - 1) tr.n_frames) <;>
    rfl

theorem round_natCast_div (a d : ℕ) (hd : d ≠ 0) :
    round ((a : ℚ) / (d : ℚ)) = (((2 * a + d) / (2 * d) : ℕ) : ℤ) := by
  have hd0 : ((d : ℚ)) ≠ 0 := by exact_mod_cast hd
  rw [round_eq]
  have hv : (a : ℚ) / (d : ℚ) + 1 / 2 =
      ((2 * a + d : ℕ) : ℚ) / ((2 * d : ℕ) : ℚ) := by
    push_cast
    field_simp
    ring
  rw [hv]
  exact_mod_cast Rat.floor_natCast_div_natCast (2 * a + d) (2 * d)

/-- Rounding-to-nearest selection on six poses and four key frames picks
indices `[0, 2, 3, 5]` (the exact positions are `0, 5/3, 10/3, 5`). -/
theorem roundNearestIndices_6_4 : roundNearestIndices 6 4 = [0, 2, 3, 5] := by
  unfold roundNearestIndices
  rw [if_neg (by omega), if_neg (by omega)]
  rw [show List.range 4 = [0, 1, 2, 3] from rfl]
  have e0 : round ((((6:ℕ) : ℚ) - 1) * (((0:ℕ)) : ℚ) / (((4:ℕ) : ℚ) - 1)) = 0 := by
    norm_num
  have e1 : round ((((6:ℕ) : ℚ) - 1) * (((1:ℕ)) : ℚ) / (((4:ℕ) : ℚ) - 1)) = 2 := by
    have hv : (((6:ℕ) : ℚ) - 1) * (((1:ℕ)) : ℚ) / (((4:ℕ) : ℚ) - 1) =
        ((5:ℕ) : ℚ) / ((3:ℕ) : ℚ) := by
      push_cast
      norm_num
    rw [hv, round_natCast_div 5 3 (by omega)]
    rfl
  have e2 : round ((((6:ℕ) : ℚ) - 1) * (((2:ℕ)) : ℚ) / (((4:ℕ) : ℚ) - 1)) = 3 := by
    have hv : (((6:ℕ) : ℚ) - 1) * (((2:ℕ)) : ℚ) / (((4:ℕ) : ℚ) - 1) =
        ((10:ℕ) : ℚ) / ((3:ℕ) : ℚ) := by
      push_cast
      norm_num
    rw [hv, round_natCast_div 10 3 (by omega)]
    rfl
  have e3 : round ((((6:ℕ) : ℚ) - 1) * (((3:ℕ)) : ℚ) / (((4:ℕ) : ℚ) - 1)) = 5 := by
    have hv : (((6:ℕ) : ℚ) - 1) * (((3:ℕ)) : ℚ) / (((4:ℕ) : ℚ) - 1) =
        ((15:ℕ) : ℚ) / ((3:ℕ) : ℚ) := by
      push_cast
      norm_num
    rw [hv, round_natCast_div 15 3 (by omega)]
    rfl
  simp only [List.map_cons, List.map_nil, e0, e1, e2, e3]

/-- Concrete six-pose trajectory with four key frames: the truncating and
the rounding selections disagree on it. -/
def cexTraj : Trajectory ℚ :=
  ⟨[wPose 0, wPose 1, wPose 2, wPose 3, wPose 4, wPose 5], false, 4, 1, fun _ => 0⟩

/-- Claim C2 counterexample: on six poses with translations
`(k,k,k), k = 0..5` and `n_frames = 4`, the builder selects the poses at
indices `[0, 1, 3, 5]` (interpolated positions `0, 5/3, 10/3, 5`
truncated), while the claim's rounding-to-nearest selection is
`[0, 2, 3, 5]`: the second key frame sits at pose 1, not pose 2. -/
theorem add_trajectory_not_round_nearest :
    keyFramePositions cexTraj = some [0, 1, 3, 5] ∧
    roundNearestIndices 6 4 = [0, 2, 3, 5] ∧
    some ([0, 1, 3, 5] : List ℚ) ≠ some ([0, 2, 3, 5] : List ℚ) := by
  refine ⟨?_, roundNearestIndices_6_4, by decide⟩
  have hl : linspace_int ((cexTraj.H.length : ℤ) - 1) cexTraj.n_frames =
      [0, 1, 3, 5] := by
    rw [show ((cexTraj.H.length : ℤ) - 1) = ((5:ℕ) : ℤ) from by decide,
      show cexTraj.n_frames = 4 from rfl, linspace_int_natCast 5 4 (by omega)]
    decide
  rw [keyFramePositions_def, hl]
  decide

/-- Claim C5: for a pose sequence of length `N ≥ 2`, `add_trajectory`
succeeds and builds a polyline whose points are the pose translations in
sequence order, whose `N-1` lines connect each consecutive pair of points
(`lines[i] = (i, i+1)`), and whose colors are `N-1` copies of the single
trajectory color. -/
theorem add_trajectory_polyline (tr : Trajectory ℚ) (hN : 2 ≤ tr.H.length) :
    ∃ ls : LineSet ℚ, ∃ frames : List (Frame ℚ),
      add_trajectory tr = Except.ok (ls, frames) ∧
      ls.points = tr.H.map Transform.p ∧
      ls.lines = (List.range (tr.H.length - 1)).map (fun i => (i, i + 1)) ∧
      ls.lines.length = tr.H.length - 1 ∧
      ls.colors = List.replicate (tr.H.length - 1) tr.c := by
  have hb := linspace_bounds_all tr.H.length tr.n_frames (by omega)
  have hbuild := buildFrames_ok tr.H tr.s _ hb
  refine ⟨⟨tr.H.map Transform.p,
      (List.range ((tr.H.map Transform.p).length - 1)).map (fun i => (i, i + 1)),
      List.replicate ((List.range ((tr.H.map Transform.p).length - 1)).map
        (fun i => (i, i + 1))).length tr.c⟩,
      (linspace_int ((tr.H.length : ℤ) - 1) tr.n_frames).map
        (fun idx => ⟨tr.H.getD idx.toNat dTransform, none, tr.s⟩),
      ?_, rfl, ?_, ?_, ?_⟩
  · rw [add_trajectory_eq, hbuild]
    rfl
  · rw [List.length_map]
  · simp [List.length_map, List.length_range]
  · simp [List.length_map, List.length_range]

/-- Witness for `add_trajectory_polyline` at the concrete trajectory
`wTraj`. -/
theorem add_trajectory_polyline_witness :
    2 ≤ wTraj.H.length ∧
      (∃ ls : LineSet ℚ, ∃ frames : List (Frame ℚ),
        add_trajectory wTraj = Except.ok (ls, frames) ∧
        ls.points = wTraj.H.map Transform.p ∧
        ls.lines = (List.range (wTraj.H.length - 1)).map (fun i => (i, i + 1)) ∧
        ls.lines.length = wTraj.H.length - 1 ∧
        ls.colors = List.replicate (wTraj.H.length - 1) wTraj.c) :=
  ⟨by decide, add_trajectory_polyline wTraj (by decide)⟩

/-- Claim C6: for every input, calling the public trajectory builder with
`show_direction = true` fails with the assertion error (message: not
implemented yet) before any geometry is constructed; the flag is never
silently ignored. -/
theorem plot_trajectory_show_direction_fails (H : List (Transform ℚ))
    (n_frames : ℕ) (s : ℚ) (c : Fin 3 → ℚ) :
    plot_trajectory H true n_frames s c = Except.error Err.assertionError := rfl

/-- Claim C10: `plot_trajectory` defaults `show_direction` to true while
asserting that it is false, so every call that omits the argument fails
with the assertion error before constructing any geometry, and a call
that explicitly passes `show_direction = false` can succeed. -/
theorem plot_trajectory_defaults_fail :
    (∀ H : List (Transform ℚ),
      plot_trajectory_defaults H = Except.error Err.assertionError) ∧
    (∃ r, plot_trajectory [wPose 0, wPose 1] false 1 1 (fun _ => 0) =
      Except.ok r) :=
  ⟨fun _ => rfl, ⟨_, rfl⟩⟩

theorem linspace_int_zero_stop (n : ℕ) :
    linspace_int 0 n = List.replicate n 0 := by
  unfold linspace_int
  by_cases h0 : n = 0
  · subst h0
    rfl
  by_cases h1 : n = 1
  · subst h1
    rfl
  rw [if_neg h0, if_neg h1]
  have hz : ∀ i ∈ List.range n,
      (fun i : ℕ => truncQ (((0:ℤ) : ℚ) * (i : ℚ) / ((n : ℚ) - 1))) i =
        (fun _ : ℕ => (0:ℤ)) i := by
    intro i _
    have hv : (((0:ℤ)) : ℚ) * (i : ℚ) / ((n : ℚ) - 1) = 0 := by
      push_cast
      ring
    simp only [hv, truncQ, le_refl, if_pos, Int.floor_zero]
  rw [List.map_congr_left hz, List.map_const', List.length_range]

theorem buildFrames_replicate (T : Transform ℚ) (s : ℚ) (n : ℕ) :
    buildFrames [T] s (List.replicate n 0) =
      Except.ok (List.replicate n ⟨T, none, s⟩) := by
  induction n with
  | zero => rfl
  | succ k ih =>
    rw [List.replicate_succ, buildFrames,
      show pythonGet [T] (0:ℤ) = some T from rfl, ih]
    rw [List.replicate_succ]
    rfl

/-- Claim C7 (amended): the builder does not enforce the precondition
`len(poses) >= 2`: a single-pose sequence is silently accepted, producing
a polyline with no segments and `n_frames` duplicate key frames at that
pose (no `PreconditionViolation` of any kind is raised). -/
theorem single_pose_silently_accepted (T : Transform ℚ) (n : ℕ) (s : ℚ)
    (c : Fin 3 → ℚ) :
    plot_trajectory [T] false n s c =
      Except.ok (⟨[T.p], [], []⟩, List.replicate n ⟨T, none, s⟩) := by
  show add_trajectory ⟨[T], false, n, s, c⟩ = _
  rw [add_trajectory_eq]
  show (buildFrames [T] s (linspace_int ((1:ℤ) - 1) n)).map _ = _
  rw [show ((1:ℤ) - 1) = 0 from rfl, linspace_int_zero_stop,
    buildFrames_replicate]
  rfl

/-- Claim C7 counterexample: a one-pose trajectory does not fail with any
precondition error; the call succeeds, returning an empty polyline and a
key frame at the single pose. -/
theorem single_pose_counterexample :
    plot_trajectory [wPose 0] false 1 1 (fun _ => 0) =
      Except.ok (⟨[(wPose 0).p], [], []⟩, [⟨wPose 0, none, 1⟩]) := rfl

/-- Model of `Frame.set_data(self, A2B, label=None)`: the body is a bare
`raise NotImplementedError()`; no field of the object is assigned before
the raise, so a failed call leaves the stored `A2B`, label and scale (and
any geometry already built from them) untouched. -/
def Frame.set_data {α : Type} ( f : Frame α) (A2B : Transform α)
    (label : Option ℕ) : Except Err (Frame α) :=
  Except.error Err.notImplementedError

/-- Model of `Trajectory.set_data(self, H, label=None)`: likewise a bare
`raise NotImplementedError()`. -/
def Trajectory.set_data {α : Type} (t : Trajectory α)
    (H : List (Transform α)) (label : Option ℕ) : Except Err (Trajectory α) :=
  Except.error Err.notImplementedError

/-- Claim C8: on every built `Frame` and every built `Trajectory`, the
`set_data` in-place re-pose fails with `NotImplementedError`; since the
error is raised before any assignment, the stored pose data (`A2B` / `H`)
and previously built geometry are unchanged by the failed call (no `ok`
result carrying a modified object is ever produced). -/
theorem set_data_not_implemented :
    (∀ ( f : Frame ℚ) (A2B : Transform ℚ) (label : Option ℕ),
      Frame.set_data f A2B label = Except.error Err.notImplementedError) ∧
    (∀ (t : Trajectory ℚ) (H : List (Transform ℚ)) (label : Option ℕ),
      Trajectory.set_data t H label = Except.error Err.notImplementedError) :=
  ⟨fun _ _ _ => rfl, fun _ _ _ => rfl⟩

/-- Diagnostic messages printed (not raised) by the projection code. -/
inductive Diagnostic
  | noMeshPathGiven
deriving DecidableEq

/-- The fields of `pytransform3d.urdf.Mesh` read by `mesh_show`: the
optional mesh path, the geometry's frame name, the uniform scale, and the
file to load.  Frame names and file names are abstracted as naturals. -/
structure Mesh where
  mesh_path : Option ℕ
  frame : ℕ
  scale : ℚ
  filename : ℕ

/-- Drawable geometry handed to `figure.add_geometry` by the projection
code: a loaded, scaled, transformed, optionally recolored triangle mesh,
or a coordinate frame of a given size. -/
inductive Geom
  | triangle_mesh (filename : ℕ) (scale : ℚ) (A2B : Transform ℚ)
      (color : Option (Fin 3 → ℚ))
  | coordinate_frame (A2B : Transform ℚ) (s : ℚ)

/-- What one projection call produces: the geometry added to the figure
and the diagnostic messages printed along the way. -/
structure RenderOutput where
  geometry : List Geom
  diagnostics : List Diagnostic

def RenderOutput.append (a b : RenderOutput) : RenderOutput :=
  ⟨a.geometry ++ b.geometry, a.diagnostics ++ b.diagnostics⟩

/-- The URDF objects dispatched on by the externally attached `show`
functions. -/
inductive UrdfObject
  | box
  | sphere
  | cylinder
  | mesh (m : Mesh)

/-- The `UrdfTransformManager`: `hasattr(tm, "collision_objects")` and
`hasattr(tm, "visuals")` are modelled as the attributes being present
(`some`) or absent (`none`); `get_transform` is the external lookup
capability, total here. -/
structure TransformManager where
  collision_objects : Option (List UrdfObject)
  visuals : Option (List UrdfObject)
  nodes : List ℕ
  get_transform : ℕ → ℕ → Transform ℚ

/-- Model of `mesh_show(self, figure, tm, frame, c=None)`: with no mesh path the
call prints a diagnostic and returns without adding geometry; otherwise
the mesh is loaded, scaled, transformed by
`tm.get_transform(self.frame, frame)`, optionally recolored, and added. -/
def mesh_show (m : Mesh) (tm : TransformManager) (frame : ℕ)
    (c : Option (Fin 3 → ℚ)) : Except Err RenderOutput :=
  match m.mesh_path with
  | none => Except.ok ⟨[], [Diagnostic.noMeshPathGiven]⟩
  | some _ =>
    Except.ok
      ⟨[Geom.triangle_mesh m.filename m.scale (tm.get_transform m.frame frame) c],
        []⟩

/-- Model of `box_show`: `raise NotImplementedError()`. -/
def box_show (tm : TransformManager) (frame : ℕ) (c : Option (Fin 3 → ℚ)) :
    Except Err RenderOutput :=
  Except.error Err.notImplementedError

/-- Model of `sphere_show`: `raise NotImplementedError()`. -/
def sphere_show (tm : TransformManager) (frame : ℕ) (c : Option (Fin 3 → ℚ)) :
    Except Err RenderOutput :=
  Except.error Err.notImplementedError

/-- Model of `cylinder_show`: `raise NotImplementedError()`. -/
def cylinder_show (tm : TransformManager) (frame : ℕ) (c : Option (Fin 3 → ℚ)) :
    Except Err RenderOutput :=
  Except.error Err.notImplementedError

/-- The per-shape `obj.show(figure, tm, frame, c)` dispatch (the source
attaches `box_show`/`sphere_show`/`cylinder_show`/`mesh_show` to the URDF
shape classes). -/
def UrdfObject.show_shape : UrdfObject → TransformManager → ℕ →
    Option (Fin 3 → ℚ) → Except Err RenderOutput
  | UrdfObject.box, tm, frame, c => box_show tm frame c
  | UrdfObject.sphere, tm, frame, c => sphere_show tm frame c
  | UrdfObject.cylinder, tm, frame, c => cylinder_show tm frame c
  | UrdfObject.mesh m, tm, frame, c => mesh_show m tm frame c

/-- Model of `_add_objects(figure, tm, objects, frame, c)`: shows each object in
order. -/
def _add_objects (tm : TransformManager) (objects : List UrdfObject)
    (frame : ℕ) (c : Option (Fin 3 → ℚ)) : Except Err RenderOutput :=
  match objects with
  | [] => Except.ok ⟨[], []⟩
  | obj :: rest => do
    let r ← obj.show_shape tm frame c
    let rs ← _add_objects tm rest frame c
    Except.ok (r.append rs)

/-- Model of `_add_frame(figure, tm, from_frame, to_frame, whitelist, s)`: skips
frames not on the whitelist, otherwise draws a coordinate frame at the
looked-up transform. -/
def _add_frame (tm : TransformManager) (from_frame to_frame : ℕ)
    (whitelist : Option (List ℕ)) (s : ℚ) : RenderOutput :=
  match whitelist with
  | some wl =>
    if from_frame ∈ wl then
      ⟨[Geom.coordinate_frame (tm.get_transform from_frame to_frame) s], []⟩
    else ⟨[], []⟩
  | none =>
    ⟨[Geom.coordinate_frame (tm.get_transform from_frame to_frame) s], []⟩

/-- Model of `show_urdf_transform_manager(figure, tm, frame, collision_objects,
visuals, frames, whitelist, s, c)`: collision objects and visuals are
each rendered only when the flag is set AND the attribute exists on the
manager (`hasattr`); a missing attribute is skipped silently.  When
`frames` is set, one coordinate frame per graph node is drawn (subject to
the whitelist). -/
def show_urdf_transform_manager (tm : TransformManager) (frame : ℕ)
    (collision_objects : Bool) (visuals : Bool) (frames : Bool)
    (whitelist : Option (List ℕ)) (s : ℚ) (c : Option (Fin 3 → ℚ)) :
    Except Err RenderOutput := do
  let r1 ← if collision_objects then
      match tm.collision_objects with
      | some objs => _add_objects tm objs frame c
      | none => Except.ok ⟨[], []⟩
    else Except.ok ⟨[], []⟩
  let r2 ← if visuals then
      match tm.visuals with
      | some vs => _add_objects tm vs frame c
      | none => Except.ok ⟨[], []⟩
    else Except.ok ⟨[], []⟩
  let r3 := if frames then
      (tm.nodes.map fun node => _add_frame tm node frame whitelist s).foldl
        RenderOutput.append ⟨[], []⟩
    else ⟨[], []⟩
  return (r1.append r2).append r3

/-- Claim C9 (amended): the two non-fatal conditions never raise and emit
no geometry for the skipped item, and the call completes normally — but
only the missing mesh path produces a diagnostic message; a graph manager
missing the optional collision-objects or visuals attribute is skipped
silently, with no diagnostic. -/
theorem non_fatal_skips :
    (∀ (fr : ℕ) (sc : ℚ) (fn : ℕ) (tm : TransformManager) (frame : ℕ)
        (c : Option (Fin 3 → ℚ)),
      mesh_show ⟨none, fr, sc, fn⟩ tm frame c =
        Except.ok ⟨[], [Diagnostic.noMeshPathGiven]⟩) ∧
    (∀ (nodes : List ℕ) (gt : ℕ → ℕ → Transform ℚ) (frame : ℕ)
        (whitelist : Option (List ℕ)) (s : ℚ) (c : Option (Fin 3 → ℚ)),
      show_urdf_transform_manager ⟨none, none, nodes, gt⟩ frame true true false
        whitelist s c = Except.ok ⟨[], []⟩) :=
  ⟨fun _ _ _ _ _ _ => rfl, fun _ _ _ _ _ _ => rfl⟩

/-- A manager with neither a collision-objects nor a visuals attribute. -/
def tmMissing : TransformManager := ⟨none, none, [], fun _ _ => dTransform⟩

/-- Claim C9 counterexample: requesting both collision objects and
visuals on a manager that has neither attribute completes with an empty
diagnostics list — the skip produces NO diagnostic message, contradicting
the claim that such skips are diagnosed. -/
theorem missing_attributes_silent :
    show_urdf_transform_manager tmMissing 0 true true false none 1 none =
      Except.ok ⟨[], []⟩ := rfl

end Visualization
